import Mathlib

set_option linter.unusedVariables false

/-!
Verification development for the AgentPulse API worker
(src/api/src/index.ts).

The definitions below are a shallow embedding of the ingestion,
aggregation and alert-evaluation pipeline of the worker.  JavaScript
numbers (event timestamps, costs, token counts, thresholds) are
modelled as exact rationals; the D1 tables `events`, `cost_daily` and
`alerts` are modelled as lists of records; each HTTP handler becomes a
pure function from a store and a request to a response and an updated
store.  The clock value `Date.now() / 1000` is passed in as the
parameter `now`, and the SQL expression `date(now)` as the parameter
`today`.
-/

namespace AgentPulse

/-- JSON values, as produced by parsing a request body.  Numbers are
modelled as exact rationals. -/
inductive Json where
  | null : Json
  | bool : Bool → Json
  | num : ℚ → Json
  | str : String → Json
  | arr : List Json → Json
  | obj : List (String × Json) → Json

/-- JavaScript `typeof x === "object"`: true for plain objects, arrays
and the null value, false for strings, numbers and booleans. -/
def Json.isObjectType : Json → Bool
  | .null => true
  | .arr _ => true
  | .obj _ => true
  | _ => false

/-- JavaScript truthiness of a JSON value: null, false, 0 and the
empty string are falsy, everything else is truthy. -/
def Json.truthy : Json → Bool
  | .null => false
  | .bool b => b
  | .num q => q != 0
  | .str s => s != ""
  | .arr _ => true
  | .obj _ => true

mutual

/-- Length in characters of `JSON.stringify` of a value.  The model is
exact for payloads whose strings need no escape sequences; a number is
counted as a single character, an approximation (no claim in this
development depends on the serialized length of a number, only of
large string payloads). -/
def Json.stringifyLen : Json → Nat
  | .null => 4
  | .bool true => 4
  | .bool false => 5
  | .num _ => 1
  | .str s => s.length + 2
  | .arr l => 2 + Json.stringifyLenArr l + (l.length - 1)
  | .obj l => 2 + Json.stringifyLenObj l + (l.length - 1)

/-- Sum of the serialized lengths of the elements of a JSON array. -/
def Json.stringifyLenArr : List Json → Nat
  | [] => 0
  | j :: rest => j.stringifyLen + Json.stringifyLenArr rest

/-- Sum of the serialized lengths of the members of a JSON object,
three extra characters per member for the quoted key and colon. -/
def Json.stringifyLenObj : List (String × Json) → Nat
  | [] => 0
  | (k, v) :: rest => k.length + 3 + v.stringifyLen + Json.stringifyLenObj rest

end

/-- Field lookup on a JSON object, as in `obj.field` or the SQL
`json_extract(data, path)`: none when the value is not an object or
the key is absent. -/
def Json.field : Json → String → Option Json
  | .obj kvs, k => kvs.lookup k
  | _, _ => none

/-- One event of an ingest batch, after JSON parsing
(the `IngestPayload.events` element type of the worker).
`data = none` models an absent (undefined) payload. -/
structure IngestEvent where
  kind : String
  ts : ℚ
  data : Option Json
  session : Option String

/-- One row of the `events` table. -/
structure Event where
  agentId : Nat
  kind : String
  ts : ℚ
  sessionKey : Option String
  data : Option Json

/-- One row of the `cost_daily` table, keyed by (agent, date). -/
structure AggRow where
  agentId : Nat
  date : String
  totalCost : ℚ
  totalTokens : ℚ
  eventCount : Nat
deriving DecidableEq

/-- One row of the `alerts` table.  The JSON `condition` column is
modelled already parsed into the fields `metric`, `op`, `threshold`. -/
structure AlertRule where
  id : Nat
  agentId : Nat
  ruleName : String
  metric : String
  op : String
  threshold : ℚ
  channel : String
  webhookUrl : Option String
  enabled : Bool
deriving DecidableEq

/-- The durable state: the three D1 tables the pipeline touches. -/
structure Store where
  events : List Event
  costDaily : List AggRow
  alerts : List AlertRule

/-- An HTTP response: status code, the `accepted` field of a
successful ingest response, and the `error` field of a failure
response. -/
structure Response where
  status : Nat
  accepted : Option Nat
  error : Option String
deriving DecidableEq

/-- Plan limits record, as in the `PLAN_LIMITS` table of the worker. -/
structure PlanLimits where
  eventsPerDay : Nat
  maxBatchSize : Nat
  retentionDays : Nat
deriving DecidableEq

/-- Plan limits lookup `PLAN_LIMITS[plan || "free"] || PLAN_LIMITS.free`:
unknown or empty plan names fall back to the free plan. -/
def PLAN_LIMITS (plan : String) : PlanLimits :=
  if plan = "free" then ⟨5000, 100, 7⟩
  else if plan = "pro" then ⟨100000, 500, 90⟩
  else ⟨5000, 100, 7⟩

/-- Validation of an event kind (`isValidKind`): nonempty, only ASCII
letters, digits and underscore, at most 64 characters. -/
def isValidKind (kind : String) : Bool :=
  kind.length ≥ 1 && kind.toList.all (fun c => c.isAlphanum || c = '_') && kind.length ≤ 64

/-- Validation of an event timestamp (`isValidTs`): between the fixed
epoch floor 2020-01-01 and one day past the current time. -/
def isValidTs (now ts : ℚ) : Bool :=
  1577836800 ≤ ts && ts ≤ now + 86400

/-- The ways a single event can fail the per-event validation loop of
POST /v1/ingest, in the order the checks run. -/
inductive EventFailure where
  | badKind
  | badTs
  | badData
  | bigData
  | bigSession
deriving DecidableEq

/-- Per-event validation of the ingest handler, returning the first
failing check (lines 414-430 of the worker): kind shape, timestamp
range, payload must be an object, serialized payload at most 16KB,
session key at most 256 characters. -/
def checkEvent (now : ℚ) (e : IngestEvent) : Option EventFailure :=
  if !isValidKind e.kind then some .badKind
  else if !isValidTs now e.ts then some .badTs
  else if (match e.data with | some j => !j.isObjectType | none => false) then some .badData
  else if (match e.data with | some j => j.truthy && j.stringifyLen > 16384 | none => false) then some .bigData
  else if (match e.session with | some s => decide (s.length > 256) | none => false) then some .bigSession
  else none

/-- The response each validation failure produces. -/
def failureResponse : EventFailure → Response
  | .badKind => ⟨400, none, some "Invalid event kind: must be alphanumeric/underscore, max 64 chars"⟩
  | .badTs => ⟨400, none, some "Invalid timestamp: must be a reasonable unix timestamp"⟩
  | .badData => ⟨400, none, some "Event data must be an object"⟩
  | .bigData => ⟨413, none, some "Event data too large (max 16KB)"⟩
  | .bigSession => ⟨400, none, some "Session key too long (max 256 chars)"⟩

/-- The event row inserted for one batch element: the session key goes
through the JavaScript `e.session || null`, so an empty string is
stored as null. -/
def mkStoredEvent (agentId : Nat) (e : IngestEvent) : Event :=
  ⟨agentId, e.kind, e.ts,
    (match e.session with | some s => if s = "" then none else some s | none => none),
    e.data⟩

/-- Count of events of one agent in the trailing 24 hour window, the
query `SELECT COUNT(*) FROM events WHERE agent_id = ? AND ts >= ?`
bound to `Date.now()/1000 - 86400`. -/
def windowCount (st : Store) (agentId : Nat) (now : ℚ) : Nat :=
  st.events.countP (fun e => e.agentId == agentId && decide (now - 86400 ≤ e.ts))

/-- Numeric field extraction `(e.data.f as number) || 0` used by the
cost aggregation: a missing, null or non-numeric field counts as
zero. -/
def numField (d : Option Json) (k : String) : ℚ :=
  match d with
  | some j => match j.field k with
    | some (.num q) => q
    | _ => 0
  | none => 0

/-- The primary-key test of the `cost_daily` table: does a row belong
to this (agent, date) pair. -/
def aggKey (agentId : Nat) (today : String) (r : AggRow) : Bool :=
  r.agentId == agentId && r.date == today

/-- The DO UPDATE arm of the upsert: add the new totals onto a row. -/
def updRow (c t : ℚ) (n : Nat) (r : AggRow) : AggRow :=
  { r with totalCost := r.totalCost + c, totalTokens := r.totalTokens + t,
           eventCount := r.eventCount + n }

/-- Updating totals does not move a row to another agent. -/
@[simp] theorem aggKey_updRow (agentId : Nat) (today : String) (c t : ℚ) (n : Nat) (r : AggRow) :
    aggKey agentId today (updRow c t n r) = aggKey agentId today r := rfl

/-- Two total updates collapse into one. -/
theorem updRow_updRow (c1 t1 : ℚ) (n1 : Nat) (c2 t2 : ℚ) (n2 : Nat) (r : AggRow) :
    updRow c2 t2 n2 (updRow c1 t1 n1 r) = updRow (c1 + c2) (t1 + t2) (n1 + n2) r := by
  simp [updRow, add_assoc]

/-- Upsert into `cost_daily` with
`ON CONFLICT(agent_id, date) DO UPDATE` adding the new totals. -/
def upsertAgg (rows : List AggRow) (agentId : Nat) (today : String) (c t : ℚ) (n : Nat) : List AggRow :=
  if rows.any (aggKey agentId today) then
    rows.map (fun r => if aggKey agentId today r then updRow c t n r else r)
  else rows ++ [⟨agentId, today, c, t, n⟩]

/-- The cost aggregation step of the ingest handler (lines 460-472):
sum the cost and token fields of the cost-kind events of the batch and
upsert them into the current-date row, doing nothing when the batch
has no cost events. -/
def applyCostAgg (st : Store) (agentId : Nat) (today : String) (events : List IngestEvent) : Store :=
  let costEvents := events.filter (fun e => e.kind == "cost")
  if costEvents.length = 0 then st
  else
    let totalCost := (costEvents.map (fun e => numField e.data "cost_usd")).sum
    let totalTokens := (costEvents.map (fun e => numField e.data "tokens")).sum
    { st with costDaily := upsertAgg st.costDaily agentId today totalCost totalTokens costEvents.length }

/-- The POST /v1/ingest handler after authentication and body parsing
(lines 394-477 of the worker): empty-batch check, absolute 500-event
cap, per-event validation, plan batch-size limit, trailing-24h quota,
then the batch insert followed by the synchronous cost aggregation.
The detached alert evaluation is modelled separately by
`evaluateAlerts`. -/
def ingest (st : Store) (agentId : Nat) (plan : String) (now : ℚ) (today : String)
    (events : List IngestEvent) : Response × Store :=
  if events.length = 0 then (⟨400, none, some "No events"⟩, st)
  else if events.length > 500 then (⟨413, none, some "Max 500 events per batch"⟩, st)
  else
    match events.findSome? (checkEvent now) with
    | some f => (failureResponse f, st)
    | none =>
      let limits := PLAN_LIMITS plan
      if events.length > limits.maxBatchSize then
        (⟨413, none, some "Batch too large"⟩, st)
      else if limits.eventsPerDay < windowCount st agentId now + events.length then
        (⟨429, none, some "Daily event limit reached"⟩, st)
      else
        let inserted := (events.take limits.maxBatchSize).map (mkStoredEvent agentId)
        let st1 : Store := { st with events := st.events ++ inserted }
        let st2 := applyCostAgg st1 agentId today events
        (⟨200, some events.length, none⟩, st2)

/-- Count of events of one agent. -/
def agentEventCount (st : Store) (agentId : Nat) : Nat :=
  st.events.countP (fun e => e.agentId == agentId)

/-- Status field of a stored or incoming payload, the JavaScript
`(e.data as any)?.status` and the SQL
`json_extract(data, $.status)` restricted to string values:
a missing or non-string status yields none, which compares unequal
to the string "fail". -/
def statusOf (d : Option Json) : Option String :=
  match d with
  | some j => match j.field "status" with
    | some (.str s) => some s
    | _ => none
  | none => none

/-- Rule id field of a stored alert_fired payload, the SQL
`json_extract(data, $.rule_id)` restricted to numeric values. -/
def ruleIdOf (d : Option Json) : Option ℚ :=
  match d with
  | some j => match j.field "rule_id" with
    | some (.num q) => some q
    | _ => none
  | none => none

/-- Insertion of one event into a list sorted by descending
timestamp. -/
def insertTsDesc (e : Event) : List Event → List Event
  | [] => [e]
  | x :: xs => if x.ts < e.ts then e :: x :: xs else x :: insertTsDesc e xs

/-- Sort a list of events by descending timestamp (the SQL
`ORDER BY ts DESC`; ties keep no specified order, matching SQL). -/
def sortTsDesc (l : List Event) : List Event :=
  l.foldr insertTsDesc []

/-- Count of cron-kind events of one agent in the trailing 24 hours
whose embedded status is "fail" (the cron_fail_count query). -/
def cronFailCount (st : Store) (agentId : Nat) (now : ℚ) : Nat :=
  st.events.countP (fun e =>
    e.agentId == agentId && e.kind == "cron" && statusOf e.data == some "fail"
      && decide (now - 86400 ≤ e.ts))

/-- The streak loop of the cron_fail_streak metric: walk the status
column of the rows returned by the descending query and count leading
"fail" values, stopping at the first other value. -/
def streakLoop : List (Option String) → Nat
  | [] => 0
  | s :: rest => if s == some "fail" then streakLoop rest + 1 else 0

/-- The ten most recent cron events of the agent in descending
timestamp order (the `ORDER BY ts DESC LIMIT 10` query of the
cron_fail_streak metric). -/
def recentCron (st : Store) (agentId : Nat) : List Event :=
  (sortTsDesc (st.events.filter (fun e => e.agentId == agentId && e.kind == "cron"))).take 10

/-- Value of the current-date cost aggregate row of the agent, zero
when the row is absent (the `row?.val ?? 0` lookups of the
daily_cost and daily_tokens metrics). -/
def aggVal (st : Store) (agentId : Nat) (today : String) (f : AggRow → ℚ) : ℚ :=
  match st.costDaily.find? (aggKey agentId today) with
  | some r => f r
  | none => 0

/-- Metric resolution of the alert evaluator (the switch on
`cond.metric`, lines 189-235 of the worker).  The result none models
the `continue` paths: an unknown metric, or a cron metric skipped
because the current batch carries no matching cron events.  Note that
cron_fail_count is skipped unless the batch has a cron event whose
status is "fail", while cron_fail_streak is skipped only when the
batch has no cron event at all. -/
def resolveMetric (st : Store) (agentId : Nat) (now : ℚ) (today : String)
    (batch : List IngestEvent) (metric : String) : Option ℚ :=
  if metric = "daily_cost" then some (aggVal st agentId today (fun r => r.totalCost))
  else if metric = "daily_tokens" then some (aggVal st agentId today (fun r => r.totalTokens))
  else if metric = "daily_events" then some (windowCount st agentId now)
  else if metric = "cron_fail_count" then
    if (batch.filter (fun e => e.kind == "cron" && statusOf e.data == some "fail")).length = 0 then none
    else some (cronFailCount st agentId now)
  else if metric = "cron_fail_streak" then
    if (batch.filter (fun e => e.kind == "cron")).length = 0 then none
    else some (streakLoop ((recentCron st agentId).map (fun e => statusOf e.data)))
  else none

/-- The comparison switch on `cond.op`; an unknown operator leaves the
rule untriggered. -/
def applyOp (op : String) (v threshold : ℚ) : Bool :=
  if op = "gt" then decide (v > threshold)
  else if op = "gte" then decide (v ≥ threshold)
  else if op = "lt" then decide (v < threshold)
  else if op = "lte" then decide (v ≤ threshold)
  else if op = "eq" then v == threshold
  else false

/-- Is this stored event an alert_fired record of this agent
referencing this rule id (the WHERE clause of the dedup lookback and
the history queries, without the time bound). -/
def isFire (agentId : Nat) (ruleId : ℚ) (e : Event) : Bool :=
  e.agentId == agentId && e.kind == "alert_fired" && ruleIdOf e.data == some ruleId

/-- Dedup lookback of the alert evaluator: is there an alert_fired
event of this agent referencing this rule id in the last hour
(lines 250-254 of the worker). -/
def hasRecentFire (st : Store) (agentId : Nat) (ruleId : ℚ) (now : ℚ) : Bool :=
  st.events.any (fun e => isFire agentId ruleId e && decide (now - 3600 ≤ e.ts))

/-- The alert_fired event the evaluator persists when a rule fires:
rule id and name, metric, measured value, threshold and operator,
stamped with the evaluation time. -/
def firedEvent (agentId : Nat) (r : AlertRule) (v : ℚ) (now : ℚ) : Event :=
  ⟨agentId, "alert_fired", now, none,
    some (.obj [("rule_id", .num r.id), ("rule_name", .str r.ruleName),
                ("metric", .str r.metric), ("value", .num v),
                ("threshold", .num r.threshold), ("op", .str r.op)])⟩

/-- Evaluation of a single enabled rule (the loop body of
`evaluateAlerts`): resolve the metric (skipping when it yields none),
compare against the threshold, suppress when an alert_fired event for
this rule exists in the last hour, otherwise persist a new alert_fired
event.  Notification delivery has no effect on the store and is not
modelled. -/
def evalRule (agentId : Nat) (now : ℚ) (today : String) (batch : List IngestEvent)
    (st : Store) (r : AlertRule) : Store :=
  match resolveMetric st agentId now today batch r.metric with
  | none => st
  | some v =>
    if applyOp r.op v r.threshold then
      if hasRecentFire st agentId (r.id : ℚ) now then st
      else { st with events := st.events ++ [firedEvent agentId r v now] }
    else st

/-- The enabled rules of the agent, the query
`SELECT ... FROM alerts WHERE agent_id = ? AND enabled = 1`. -/
def enabledRules (st : Store) (agentId : Nat) : List AlertRule :=
  st.alerts.filter (fun r => r.agentId == agentId && r.enabled)

/-- The detached alert evaluation pass run after a successful ingest
(`evaluateAlerts`, lines 178-302 of the worker): the rule list is read
once, then each rule is evaluated in order against the store as left
by the previous rules. -/
def evaluateAlerts (st : Store) (agentId : Nat) (now : ℚ) (today : String)
    (batch : List IngestEvent) : Store :=
  (enabledRules st agentId).foldl (evalRule agentId now today batch) st

/-- One full processing step for an ingest request of one agent: run
the ingest handler, and on success run the detached alert evaluation
over the accepted batch (the `ctx_evaluateAlerts` call at line 475).
The pair carries the batch and the request time. -/
def ingestStep (plan : String) (today : String) (agentId : Nat)
    (st : Store) (p : List IngestEvent × ℚ) : Store :=
  let r := ingest st agentId plan p.2 today p.1
  if r.1.status = 200 then evaluateAlerts r.2 agentId p.2 today p.1 else r.2

/-- Count of persisted alert_fired events of one agent referencing one
rule id. -/
def fireCount (st : Store) (agentId : Nat) (ruleId : ℚ) : Nat :=
  st.events.countP (isFire agentId ruleId)

/-- The JavaScript `s.toLowerCase()` on a hostname, character by
character. -/
def lowerStr (s : String) : String :=
  String.mk (s.toList.map Char.toLower)

/-- The JavaScript `s.startsWith(p)`. -/
def strStartsWith (s p : String) : Bool :=
  List.isPrefixOf p.toList s.toList

/-- The JavaScript `s.endsWith(p)`. -/
def strEndsWith (s p : String) : Bool :=
  List.isSuffixOf p.toList s.toList

/-- Splitting a character list at the first :// separator. -/
def splitSchemeSep : List Char → Option (List Char × List Char)
  | [] => none
  | ':' :: '/' :: '/' :: rest => some ([], rest)
  | c :: rest =>
    match splitSchemeSep rest with
    | some (a, b) => some (c :: a, b)
    | none => none

/-- Splitting a URL string into protocol (with trailing colon) and
hostname, modelling the `new URL` constructor on URLs of the shape
scheme://host[:port][/path][?query][#fragment]; every URL examined by
the claims has this shape.  A string without the :// separator yields
none, modelling the constructor throwing. -/
def parseUrl (url : String) : Option (String × String) :=
  match splitSchemeSep url.toList with
  | none => none
  | some (scheme, after) =>
    let hostPort := after.takeWhile (fun c => c ≠ '/' && c ≠ '?' && c ≠ '#')
    let hostname :=
      if hostPort.head? = some '[' then hostPort.takeWhile (fun c => c ≠ ']') ++ [']']
      else hostPort.takeWhile (fun c => c ≠ ':')
    some (String.mk (scheme ++ [':']), String.mk hostname)

/-- The textual private-prefix test of `isValidWebhookUrl`, the regex
alternation 10. | 172.(16..31). | 192.168. | 127. | 0. | 169.254.
anchored at the start of the lowercased hostname. -/
def privatePrefix (host : String) : Bool :=
  strStartsWith host "10." ||
  ["172.16.", "172.17.", "172.18.", "172.19.", "172.20.", "172.21.", "172.22.",
   "172.23.", "172.24.", "172.25.", "172.26.", "172.27.", "172.28.", "172.29.",
   "172.30.", "172.31."].any (fun p => strStartsWith host p) ||
  strStartsWith host "192.168." ||
  strStartsWith host "127." ||
  strStartsWith host "0." ||
  strStartsWith host "169.254."

/-- Webhook URL validation of the worker (`isValidWebhookUrl`,
lines 100-112): HTTPS only, then on the lowercased hostname reject
localhost, a .local suffix, the bracketed IPv6 loopback, the textual
private-address prefixes and the known metadata endpoints.  A URL the
parser rejects is invalid (the catch branch). -/
def isValidWebhookUrl (url : String) : Bool :=
  match parseUrl url with
  | none => false
  | some (protocol, hostname) =>
    if protocol ≠ "https:" then false
    else
      let host := lowerStr hostname
      if host = "localhost" || strEndsWith host ".local" || host = "[::1]" then false
      else if privatePrefix host then false
      else if host = "169.254.169.254" || host = "metadata.google.internal" then false
      else true

/-- Truthiness of an optional string body field: absent or empty means
falsy, as the JavaScript `!body.field` test sees it. -/
def falsyStr : Option String → Bool
  | none => true
  | some s => s == ""

/-- The parsed `condition` object of a POST /v1/alerts body; every
field may be absent. -/
structure CondBody where
  metric : Option String
  op : Option String
  threshold : Option ℚ

/-- The parsed body of POST /v1/alerts. -/
structure AlertBody where
  ruleName : Option String
  condition : Option CondBody
  channel : Option String
  webhookUrl : Option String

/-- The POST /v1/alerts handler (lines 489-529 of the worker): require
rule_name and a condition with metric, op and threshold, check the
operator and metric against the allowed lists, default the channel to
webhook, for the webhook channel require and validate the URL, cap the
rules of the agent at ten, then insert the rule (enabled by default,
per the table default).  The database-assigned row id is passed in as
`newId`; the resolved plan of the agent is passed in as `plan` and is
never consulted by the handler, exactly as in the worker. -/
def createAlert (st : Store) (agentId : Nat) (plan : String) (body : AlertBody)
    (newId : Nat) : Response × Store :=
  if falsyStr body.ruleName || body.condition.isNone then
    (⟨400, none, some "rule_name and condition required"⟩, st)
  else
    let cond := body.condition.getD ⟨none, none, none⟩
    if falsyStr cond.metric || falsyStr cond.op || cond.threshold.isNone then
      (⟨400, none, some "condition needs metric, op, threshold"⟩, st)
    else
      let op := cond.op.getD ""
      let metric := cond.metric.getD ""
      if (["gt", "gte", "lt", "lte", "eq"].contains op) = false then
        (⟨400, none, some "op must be one of: gt, gte, lt, lte, eq"⟩, st)
      else if (["daily_cost", "daily_tokens", "daily_events", "cron_fail_count", "cron_fail_streak"].contains metric) = false then
        (⟨400, none, some "metric must be one of: daily_cost, daily_tokens, daily_events, cron_fail_count, cron_fail_streak"⟩, st)
      else
        let ch := if falsyStr body.channel then "webhook" else body.channel.getD ""
        if ch = "webhook" && falsyStr body.webhookUrl then
          (⟨400, none, some "webhook_url required for webhook channel"⟩, st)
        else if ch = "webhook" && !isValidWebhookUrl (body.webhookUrl.getD "") then
          (⟨400, none, some "Invalid webhook URL (must be HTTPS, no private IPs)"⟩, st)
        else if st.alerts.countP (fun r => r.agentId == agentId) ≥ 10 then
          (⟨429, none, some "Max 10 alert rules"⟩, st)
        else
          let url := match body.webhookUrl with
            | some u => if u = "" then none else some u
            | none => none
          let rule : AlertRule :=
            ⟨newId, agentId, body.ruleName.getD "", metric, op, cond.threshold.getD 0, ch, url, true⟩
          (⟨201, none, none⟩, { st with alerts := st.alerts ++ [rule] })

/-- The DELETE /v1/alerts/:id handler (lines 533-541 of the worker):
delete the rule scoped to the authenticated agent and answer 404 when
no row was deleted. -/
def deleteAlert (st : Store) (agentId : Nat) (alertId : Nat) : Response × Store :=
  let remaining := st.alerts.filter (fun r => !(r.id == alertId && r.agentId == agentId))
  if st.alerts.length - remaining.length = 0 then
    (⟨404, none, some "Not found"⟩, st)
  else
    (⟨200, none, none⟩, { st with alerts := remaining })

/-- The parsed body of PATCH /v1/alerts/:id; absent fields are left
untouched. -/
structure PatchBody where
  enabled : Option Bool
  webhookUrl : Option String
  ruleName : Option String

/-- The PATCH /v1/alerts/:id handler (lines 543-563 of the worker):
validate a nonempty submitted webhook URL, reject an empty update set,
then apply the submitted fields to the rule matching both the id and
the authenticated agent.  The handler answers 200 whether or not any
row matched. -/
def patchAlert (st : Store) (agentId : Nat) (alertId : Nat) (body : PatchBody) : Response × Store :=
  if (match body.webhookUrl with | some u => u != "" && !isValidWebhookUrl u | none => false) then
    (⟨400, none, some "Invalid webhook URL (must be HTTPS, no private IPs)"⟩, st)
  else if body.enabled.isNone && body.webhookUrl.isNone && body.ruleName.isNone then
    (⟨400, none, some "Nothing to update"⟩, st)
  else
    let apply1 : AlertRule → AlertRule := fun r =>
      { r with enabled := body.enabled.getD r.enabled,
               webhookUrl := (match body.webhookUrl with | some u => some u | none => r.webhookUrl),
               ruleName := body.ruleName.getD r.ruleName }
    let alerts := st.alerts.map (fun r => if r.id == alertId && r.agentId == agentId then apply1 r else r)
    (⟨200, none, none⟩, { st with alerts := alerts })

/-- Splitting a character list at every dot. -/
def splitDots : List Char → List (List Char)
  | [] => [[]]
  | '.' :: rest => [] :: splitDots rest
  | c :: rest =>
    match splitDots rest with
    | g :: gs => (c :: g) :: gs
    | [] => [[c]]

/-- Value of a nonempty all-digit character group, none otherwise. -/
def digitsVal (cs : List Char) : Option Nat :=
  if cs.isEmpty || !(cs.all Char.isDigit) then none
  else some (cs.foldl (fun acc c => acc * 10 + (c.toNat - 48)) 0)

/-- Dotted-quad parse of a literal IPv4 address: four nonempty decimal
components, each at most 255. -/
def parseIPv4 (s : String) : Option (Nat × Nat × Nat × Nat) :=
  match (splitDots s.toList).map digitsVal with
  | [some a, some b, some c, some d] =>
    if a ≤ 255 && b ≤ 255 && c ≤ 255 && d ≤ 255 then some (a, b, c, d) else none
  | _ => none

/-- Is the hostname a literal IPv4 address lying in a loopback,
private or link-local range (127/8, 10/8, 172.16/12, 192.168/16,
169.254/16). -/
def isPrivateIPv4Literal (host : String) : Bool :=
  match parseIPv4 host with
  | some (a, b, _, _) =>
    a == 127 || a == 10 || (a == 172 && (16 ≤ b && b ≤ 31)) || (a == 192 && b == 168) || (a == 169 && b == 254)
  | none => false

/-- Modelled from the spec claim on webhook admissibility, word for
word: the scheme must be exactly https, and the hostname must not be
localhost, must not end in the local-network suffix .local, must not
be a loopback, private or link-local literal IPv4 address, and must
not be a known cloud metadata endpoint.  This is the claim-side
predicate a faithful source embedding is compared against; it is not
derived from the worker. -/
def claimWebhookOk (url : String) : Bool :=
  match parseUrl url with
  | none => false
  | some (protocol, hostname) =>
    let host := lowerStr hostname
    protocol == "https:" &&
    host != "localhost" &&
    !strEndsWith host ".local" &&
    !isPrivateIPv4Literal host &&
    host != "169.254.169.254" &&
    host != "metadata.google.internal"

/-! ### Helper lemmas -/

/-- Cost aggregation writes only the cost_daily table. -/
theorem applyCostAgg_events (st : Store) (agentId : Nat) (today : String)
    (events : List IngestEvent) :
    (applyCostAgg st agentId today events).events = st.events := by
  simp only [applyCostAgg]
  split <;> rfl

/-- Cost aggregation leaves the alerts table alone. -/
theorem applyCostAgg_alerts (st : Store) (agentId : Nat) (today : String)
    (events : List IngestEvent) :
    (applyCostAgg st agentId today events).alerts = st.alerts := by
  simp only [applyCostAgg]
  split <;> rfl

/-- An ingest request past every check reaches the insert and the
cost aggregation and answers 200 with the full batch length. -/
theorem ingest_success_eq (st : Store) (agentId : Nat) (plan : String)
    (now : ℚ) (today : String) (batch : List IngestEvent)
    (hne : batch ≠ [])
    (hcap : batch.length ≤ 500)
    (hvalid : batch.findSome? (checkEvent now) = none)
    (hplan : batch.length ≤ (PLAN_LIMITS plan).maxBatchSize)
    (hquota : windowCount st agentId now + batch.length ≤ (PLAN_LIMITS plan).eventsPerDay) :
    ingest st agentId plan now today batch
      = (⟨200, some batch.length, none⟩,
          applyCostAgg { st with events := st.events ++ batch.map (mkStoredEvent agentId) }
            agentId today batch) := by
  have hlen0 : ¬ batch.length = 0 := by
    simpa [List.length_eq_zero] using hne
  have htake : batch.take (PLAN_LIMITS plan).maxBatchSize = batch :=
    List.take_of_length_le hplan
  unfold ingest
  rw [if_neg hlen0, if_neg (by omega), hvalid]
  rw [if_neg (by omega), if_neg (by omega), htake]

/-- A batch within the absolute cap holding an invalid event is
rejected with the response of its first failing check and the store is
untouched. -/
theorem ingest_invalid_eq (st : Store) (agentId : Nat) (plan : String)
    (now : ℚ) (today : String) (batch : List IngestEvent) (f : EventFailure)
    (hcap : batch.length ≤ 500)
    (hf : batch.findSome? (checkEvent now) = some f) :
    ingest st agentId plan now today batch = (failureResponse f, st) := by
  have hne : ¬ batch.length = 0 := by
    intro h
    rw [List.length_eq_zero] at h
    subst h
    simp at hf
  unfold ingest
  rw [if_neg hne, if_neg (by omega), hf]

/-- Searching a constant list with a function that yields nothing
yields nothing. -/
theorem findSome?_replicate_none {α β : Type} {f : α → Option β} {a : α} {n : Nat}
    (h : f a = none) : (List.replicate n a).findSome? f = none := by
  induction n with
  | zero => simp
  | succ k ih => simp [List.replicate_succ, List.findSome?_cons, h, ih]

/-! ### C1 -/

/-- C1: an authenticated ingest request whose batch passes the
emptiness check, the absolute cap, the per-event validation, the plan
batch-size limit and the trailing-24h quota is answered with status
200 and accepted count equal to the batch length; the store gains
exactly the batch, every new row carries the authenticated agent id,
event counts of all other agents are untouched, and the slice to
maxBatchSize before insertion never truncates. -/
theorem ingest_success_accepts_whole_batch (st : Store) (agentId : Nat) (plan : String)
    (now : ℚ) (today : String) (batch : List IngestEvent)
    (hne : batch ≠ [])
    (hcap : batch.length ≤ 500)
    (hvalid : batch.findSome? (checkEvent now) = none)
    (hplan : batch.length ≤ (PLAN_LIMITS plan).maxBatchSize)
    (hquota : windowCount st agentId now + batch.length ≤ (PLAN_LIMITS plan).eventsPerDay) :
    (ingest st agentId plan now today batch).1 = ⟨200, some batch.length, none⟩ ∧
    (ingest st agentId plan now today batch).2.events
      = st.events ++ batch.map (mkStoredEvent agentId) ∧
    batch.take (PLAN_LIMITS plan).maxBatchSize = batch ∧
    agentEventCount (ingest st agentId plan now today batch).2 agentId
      = agentEventCount st agentId + batch.length ∧
    (∀ a : Nat, a ≠ agentId →
      agentEventCount (ingest st agentId plan now today batch).2 a = agentEventCount st a) := by
  have htake : batch.take (PLAN_LIMITS plan).maxBatchSize = batch :=
    List.take_of_length_le hplan
  have hres := ingest_success_eq st agentId plan now today batch hne hcap hvalid hplan hquota
  refine ⟨by rw [hres], ?_, htake, ?_, ?_⟩
  · rw [hres, applyCostAgg_events]
  · rw [hres]
    unfold agentEventCount
    rw [applyCostAgg_events]
    simp [List.countP_append, List.countP_map, Function.comp_def, mkStoredEvent,
      List.countP_eq_length]
  · intro a ha
    rw [hres]
    unfold agentEventCount
    rw [applyCostAgg_events]
    have : (batch.map (mkStoredEvent agentId)).countP (fun e => e.agentId == a) = 0 := by
      simp [List.countP_map, Function.comp_def, mkStoredEvent]
      intro x _
      exact fun h => (ha h.symm).elim
    simp [List.countP_append, this]

/-- Witness for C1: a concrete one-event batch on an empty store is
accepted with count 1. -/
theorem ingest_success_accepts_whole_batch_witness :
    (ingest ⟨[], [], []⟩ 1 "free" 1700000000 "2026-10-12"
        [⟨"ping", 1700000000, none, none⟩]).1 = ⟨200, some 1, none⟩ := by
  have h := ingest_success_accepts_whole_batch ⟨[], [], []⟩ 1 "free" 1700000000 "2026-10-12"
    [⟨"ping", 1700000000, none, none⟩]
    (by simp)
    (by simp)
    (by norm_num [List.findSome?, checkEvent, isValidKind, isValidTs]
        decide)
    (by simp [PLAN_LIMITS])
    (by norm_num [PLAN_LIMITS, windowCount])
  exact h.1

/-! ### C2 -/

/-- A seventeen-thousand character string, used to build a payload
whose serialization exceeds the 16KB event-data limit. -/
def bigStr : String :=
  String.mk (List.replicate 17000 'x')

/-- A batch element whose payload serializes past 16KB. -/
def bigEv : IngestEvent :=
  ⟨"blob", 1700000000, some (.obj [("b", .str bigStr)]), none⟩

/-- Counterexample to C2 as stated: a batch whose only event carries a
payload serialized over 16KB is an invalid batch in the sense of the
claim, yet the request is rejected with status 413, not 400 (worker
line 425); no event is persisted. -/
theorem oversized_payload_rejected_with_413_not_400 :
    Json.stringifyLen (.obj [("b", .str bigStr)]) > 16384 ∧
    (ingest ⟨[], [], []⟩ 1 "free" 1700000000 "2026-10-12" [bigEv]).1.status = 413 ∧
    (ingest ⟨[], [], []⟩ 1 "free" 1700000000 "2026-10-12" [bigEv]).1.status ≠ 400 ∧
    (ingest ⟨[], [], []⟩ 1 "free" 1700000000 "2026-10-12" [bigEv]).2 = ⟨[], [], []⟩ := by
  have hbs : bigStr.length = 17000 := by
    have h1 : bigStr.length = (List.replicate 17000 'x').length := rfl
    rw [h1, List.length_replicate]
  have hlen : Json.stringifyLen (.obj [("b", .str bigStr)]) = 17008 := by
    simp only [Json.stringifyLen, Json.stringifyLenObj, List.length_cons, List.length_nil]
    rw [hbs]
    rfl
  have hcheck : checkEvent 1700000000 bigEv = some .bigData := by
    rw [checkEvent]
    rw [if_neg (by rw [bigEv]; norm_num [isValidKind]; decide)]
    rw [if_neg (by rw [bigEv]; norm_num [isValidTs])]
    rw [if_neg (by rw [bigEv]; simp [Json.isObjectType])]
    rw [if_pos (by rw [bigEv]; simp [Json.truthy, hlen])]
  have hres := ingest_invalid_eq ⟨[], [], []⟩ 1 "free" 1700000000 "2026-10-12" [bigEv]
    .bigData (by simp) (by simp [List.findSome?_cons, hcheck])
  refine ⟨by rw [hlen]; norm_num, ?_, ?_, ?_⟩ <;> rw [hres] <;> simp [failureResponse]

/-- C2 as amended: a batch within the absolute cap holding an invalid
event is answered, at its first failing check, with a 4xx error
carrying a descriptive reason (400 for a bad kind, a bad timestamp, a
non-object payload or an oversized session key, 413 for a payload
serialized over 16KB) and zero events of the batch are persisted. -/
theorem ingest_invalid_event_aborts_batch (st : Store) (agentId : Nat) (plan : String)
    (now : ℚ) (today : String) (batch : List IngestEvent) (f : EventFailure)
    (hcap : batch.length ≤ 500)
    (hf : batch.findSome? (checkEvent now) = some f) :
    ingest st agentId plan now today batch = (failureResponse f, st) ∧
    (failureResponse f).status = (if f = .bigData then 413 else 400) ∧
    (failureResponse f).error.isSome = true := by
  refine ⟨ingest_invalid_eq st agentId plan now today batch f hcap hf, ?_, ?_⟩ <;>
    cases f <;> simp [failureResponse]

/-- Witness for C2: a one-event batch with an invalid kind is rejected
with 400 and the store is untouched. -/
theorem ingest_invalid_event_aborts_batch_witness :
    ingest ⟨[], [], []⟩ 1 "free" 1700000000 "2026-10-12" [⟨"bad kind!", 1700000000, none, none⟩]
      = (⟨400, none, some "Invalid event kind: must be alphanumeric/underscore, max 64 chars"⟩,
          ⟨[], [], []⟩) := by
  have h := ingest_invalid_event_aborts_batch ⟨[], [], []⟩ 1 "free" 1700000000 "2026-10-12"
    [⟨"bad kind!", 1700000000, none, none⟩] .badKind (by simp)
    (by simp [List.findSome?_cons, checkEvent, isValidKind])
  rw [h.1]
  rfl

/-! ### C6 -/

/-- C6: on the free plan (dailyEventCap 5000), a valid batch no larger
than the plan batch limit is rejected with 429 and persists nothing
exactly when the trailing-24h event count plus the batch size strictly
exceeds 5000; otherwise it is accepted in full, so landing exactly on
the cap is allowed. -/
theorem quota_sliding_window_boundary (st : Store) (agentId : Nat) (now : ℚ) (today : String)
    (batch : List IngestEvent)
    (hne : batch ≠ [])
    (hsize : batch.length ≤ 100)
    (hvalid : batch.findSome? (checkEvent now) = none) :
    (windowCount st agentId now + batch.length > 5000 →
      ingest st agentId "free" now today batch
        = (⟨429, none, some "Daily event limit reached"⟩, st)) ∧
    (windowCount st agentId now + batch.length ≤ 5000 →
      (ingest st agentId "free" now today batch).1.status = 200 ∧
      (ingest st agentId "free" now today batch).1.accepted = some batch.length ∧
      agentEventCount (ingest st agentId "free" now today batch).2 agentId
        = agentEventCount st agentId + batch.length) := by
  constructor
  · intro hover
    have hlen0 : ¬ batch.length = 0 := by
      simpa [List.length_eq_zero] using hne
    unfold ingest
    rw [if_neg hlen0, if_neg (by omega), hvalid]
    rw [if_neg (by simp [PLAN_LIMITS]; omega), if_pos (by simp [PLAN_LIMITS]; omega)]
  · intro hunder
    have hres := ingest_success_eq st agentId "free" now today batch hne
      (by omega) hvalid (by simp [PLAN_LIMITS]; omega) (by simp [PLAN_LIMITS]; omega)
    refine ⟨by rw [hres], by rw [hres], ?_⟩
    rw [hres]
    unfold agentEventCount
    rw [applyCostAgg_events]
    simp [List.countP_append, List.countP_map, Function.comp_def, mkStoredEvent,
      List.countP_eq_length]

/-- An event already stored inside the trailing 24-hour window of the
witness scenario. -/
def evInWindow : Event :=
  ⟨1, "metric", 1699999000, none, none⟩

/-- The store of the quota witness: agent 1 has exactly 4990 events in
the trailing 24 hours. -/
def stQuota : Store :=
  ⟨List.replicate 4990 evInWindow, [], []⟩

/-- A valid batch element for the quota witness. -/
def mEv : IngestEvent :=
  ⟨"m", 1700000000, none, none⟩

/-- Witness for C6: with 4990 events already in the window, a valid
batch of 11 is rejected with 429 and nothing is persisted, while a
valid batch of 10 is accepted. -/
theorem quota_sliding_window_boundary_witness :
    ingest stQuota 1 "free" 1700000000 "2026-10-12" (List.replicate 11 mEv)
      = (⟨429, none, some "Daily event limit reached"⟩, stQuota) ∧
    (ingest stQuota 1 "free" 1700000000 "2026-10-12" (List.replicate 10 mEv)).1.status = 200 := by
  have hwc : windowCount stQuota 1 1700000000 = 4990 := by
    rw [windowCount, stQuota, List.countP_replicate]
    norm_num [evInWindow]
  have hm : checkEvent 1700000000 mEv = none := by
    rw [checkEvent]
    rw [if_neg (by rw [mEv]; norm_num [isValidKind]; decide)]
    rw [if_neg (by rw [mEv]; norm_num [isValidTs])]
    rfl
  constructor
  · exact (quota_sliding_window_boundary stQuota 1 1700000000 "2026-10-12"
      (List.replicate 11 mEv) (by simp) (by simp) (findSome?_replicate_none hm)).1
      (by rw [hwc]; simp)
  · exact ((quota_sliding_window_boundary stQuota 1 1700000000 "2026-10-12"
      (List.replicate 10 mEv) (by simp) (by simp) (findSome?_replicate_none hm)).2
      (by rw [hwc]; simp)).1

/-! ### C3 -/

/-- A store for the C3 counterexample: the only alert rule belongs to
agent 2. -/
def stOther : Store :=
  ⟨[], [], [⟨7, 2, "r", "daily_cost", "gt", 10, "email", none, true⟩]⟩

/-- Counterexample to C3 as stated: agent 1 patches rule 7, which
belongs to agent 2, and the handler answers 200, not 404 (worker
lines 561-563 run the scoped UPDATE and never check how many rows
changed). -/
theorem patch_nonowned_returns_200_not_404 :
    (∀ r ∈ stOther.alerts, ¬(r.id = 7 ∧ r.agentId = 1)) ∧
    (patchAlert stOther 1 7 ⟨some true, none, none⟩).1.status = 200 ∧
    (patchAlert stOther 1 7 ⟨some true, none, none⟩).1.status ≠ 404 := by
  refine ⟨?_, ?_, ?_⟩
  · intro r hr
    simp [stOther] at hr
    simp [hr]
  · rfl
  · rw [show (patchAlert stOther 1 7 ⟨some true, none, none⟩).1.status = 200 from rfl]
    omega

/-- A rule row fails the id-and-owner test of the scoped UPDATE and
DELETE statements when it is not the addressed rule of the caller. -/
theorem matchRule_eq_false {r : AlertRule} {alertId agentId : Nat}
    (h : ¬(r.id = alertId ∧ r.agentId = agentId)) :
    (r.id == alertId && r.agentId == agentId) = false := by
  apply Bool.eq_false_iff.mpr
  simp only [ne_eq, Bool.and_eq_true, beq_iff_eq]
  exact h

/-- C3 as amended: a DELETE of a rule id that does not exist or
belongs to a different tenant answers 404 and leaves every rule
unchanged, indistinguishable from true absence; a PATCH in the same
situation also leaves every rule unchanged (so cross-tenant rules can
never be altered) but answers 200 rather than 404, provided the body
passes the webhook validation and carries at least one field. -/
theorem nonowned_alert_mutations_leave_rules_unchanged (st : Store) (agentId alertId : Nat)
    (body : PatchBody)
    (hno : ∀ r ∈ st.alerts, ¬(r.id = alertId ∧ r.agentId = agentId))
    (hweb : (match body.webhookUrl with | some u => u != "" && !isValidWebhookUrl u | none => false) = false)
    (hset : (body.enabled.isNone && body.webhookUrl.isNone && body.ruleName.isNone) = false) :
    deleteAlert st agentId alertId = (⟨404, none, some "Not found"⟩, st) ∧
    patchAlert st agentId alertId body = (⟨200, none, none⟩, st) := by
  constructor
  · unfold deleteAlert
    have hfilter : st.alerts.filter (fun r => !(r.id == alertId && r.agentId == agentId)) = st.alerts := by
      rw [List.filter_eq_self]
      intro r hr
      rw [matchRule_eq_false (hno r hr)]
      rfl
    rw [hfilter]
    simp
  · unfold patchAlert
    rw [if_neg (by simp [hweb]), if_neg (by simp [hset])]
    have hmap : st.alerts.map
        (fun r => if r.id == alertId && r.agentId == agentId then
          { r with enabled := body.enabled.getD r.enabled,
                   webhookUrl := (match body.webhookUrl with | some u => some u | none => r.webhookUrl),
                   ruleName := body.ruleName.getD r.ruleName } else r) = st.alerts := by
      refine (List.map_congr_left ?_).trans (List.map_id st.alerts)
      intro r hr
      simp [matchRule_eq_false (hno r hr)]
    simp only [hmap]

/-- Witness for C3 amended: in the counterexample store, agent 1
deleting and patching rule 7 leaves the store untouched, the DELETE
answering 404 and the PATCH answering 200. -/
theorem nonowned_alert_mutations_witness :
    deleteAlert stOther 1 7 = (⟨404, none, some "Not found"⟩, stOther) ∧
    patchAlert stOther 1 7 ⟨some true, none, none⟩ = (⟨200, none, none⟩, stOther) :=
  nonowned_alert_mutations_leave_rules_unchanged stOther 1 7 ⟨some true, none, none⟩
    (by intro r hr; simp [stOther] at hr; simp [hr]) rfl rfl

/-! ### C10 -/

/-- C10: the POST /v1/alerts handler gives the same answer whatever
the plan of the tenant resolves to; once a tenant holds ten or more
rules every well-formed creation request is refused with 429 and the
store is unchanged (a malformed one is refused earlier with 400, also
unchanged); and a rule count at most ten stays at most ten. -/
theorem alert_rule_cap_ten_regardless_of_plan (st : Store) (agentId : Nat)
    (plan plan2 : String) (body : AlertBody) (newId : Nat) :
    createAlert st agentId plan body newId = createAlert st agentId plan2 body newId ∧
    (st.alerts.countP (fun r => r.agentId == agentId) ≥ 10 →
      (createAlert st agentId plan body newId).2 = st ∧
      ((createAlert st agentId plan body newId).1.status = 400 ∨
        createAlert st agentId plan body newId = (⟨429, none, some "Max 10 alert rules"⟩, st))) ∧
    (st.alerts.countP (fun r => r.agentId == agentId) ≤ 10 →
      (createAlert st agentId plan body newId).2.alerts.countP (fun r => r.agentId == agentId) ≤ 10) := by
  refine ⟨rfl, ?_, ?_⟩
  · intro hcount
    simp only [createAlert]
    repeat' split
    all_goals first
      | exact ⟨rfl, Or.inl rfl⟩
      | exact ⟨rfl, Or.inr rfl⟩
  · intro hle
    simp only [createAlert]
    repeat' split
    all_goals dsimp only
    all_goals try exact hle
    all_goals simp only [List.countP_append, List.countP_singleton]
    all_goals split <;> omega

/-- A rule occupying one slot of the cap in the C10 witness store. -/
def capRule : AlertRule :=
  ⟨3, 1, "r", "daily_cost", "gt", 10, "email", none, true⟩

/-- The witness store for C10: agent 1 already holds ten rules. -/
def stCap : Store :=
  ⟨[], [], List.replicate 10 capRule⟩

/-- A well-formed creation body for the C10 witness. -/
def capBody : AlertBody :=
  ⟨some "new rule", some ⟨some "daily_cost", some "gt", some 5⟩, none,
    some "https://public.example.com/hook"⟩

/-- Witness for C10: with ten rules already present, creation on the
pro plan leaves the store unchanged and is answered with 400 or the
429 cap response (the disjunction the theorem yields; the concrete
body is well-formed, so the 429 branch is the live one). -/
theorem alert_rule_cap_ten_witness :
    (createAlert stCap 1 "pro" capBody 99).2 = stCap ∧
    ((createAlert stCap 1 "pro" capBody 99).1.status = 400 ∨
      createAlert stCap 1 "pro" capBody 99 = (⟨429, none, some "Max 10 alert rules"⟩, stCap)) :=
  (alert_rule_cap_ten_regardless_of_plan stCap 1 "pro" "pro" capBody 99).2.1
    (by simp [stCap, List.countP_replicate, capRule])

/-! ### C4 -/

/-- Counterexample to C4 as stated: the hostname 10.example.com is not
a literal IPv4 address, so the claimed admissibility criterion accepts
https://10.example.com/hook, yet the worker rejects it, because its
private-address check is a textual prefix match on the hostname
(worker line 106); at rule creation the URL draws a 400. -/
theorem webhook_prefix_match_rejects_public_hostname :
    claimWebhookOk "https://10.example.com/hook" = true ∧
    isValidWebhookUrl "https://10.example.com/hook" = false ∧
    createAlert ⟨[], [], []⟩ 1 "free"
        ⟨some "r", some ⟨some "daily_cost", some "gt", some 5⟩, none, some "https://10.example.com/hook"⟩ 1
      = (⟨400, none, some "Invalid webhook URL (must be HTTPS, no private IPs)"⟩, ⟨[], [], []⟩) := by
  refine ⟨by decide, by decide, ?_⟩
  rfl

/-- C4 as amended: a webhook URL is accepted iff its scheme is exactly
https and its lowercased hostname is not localhost, does not end in
.local, is not the bracketed IPv6 loopback, does not begin with a
textual loopback, private, link-local or this-network IPv4 prefix (a
prefix match, so non-address hostnames such as 10.example.com are also
rejected), and is not a known cloud metadata endpoint; in particular
http://example.com and https://169.254.169.254/ are rejected and draw
a 400 at rule creation, and https://public.example.com/hook is
accepted. -/
theorem webhook_url_admissibility :
    (∀ url p h, parseUrl url = some (p, h) →
      isValidWebhookUrl url
        = (p == "https:" && !(lowerStr h == "localhost") && !strEndsWith (lowerStr h) ".local"
            && !(lowerStr h == "[::1]") && !privatePrefix (lowerStr h)
            && !(lowerStr h == "169.254.169.254") && !(lowerStr h == "metadata.google.internal"))) ∧
    isValidWebhookUrl "http://example.com" = false ∧
    isValidWebhookUrl "https://169.254.169.254/" = false ∧
    isValidWebhookUrl "https://public.example.com/hook" = true ∧
    (∀ (st : Store) (agentId : Nat) (plan : String) (newId : Nat) (t : ℚ) (url : String),
      url ≠ "" → isValidWebhookUrl url = false →
      createAlert st agentId plan ⟨some "r", some ⟨some "daily_cost", some "gt", some t⟩, none, some url⟩ newId
        = (⟨400, none, some "Invalid webhook URL (must be HTTPS, no private IPs)"⟩, st)) ∧
    (∀ (st : Store) (agentId : Nat) (plan : String) (newId : Nat) (t : ℚ) (url : String),
      isValidWebhookUrl url = true →
      (createAlert st agentId plan ⟨some "r", some ⟨some "daily_cost", some "gt", some t⟩, none, some url⟩ newId).1.status
        ≠ 400) := by
  have hop : (["gt", "gte", "lt", "lte", "eq"].contains "gt") = true := by decide
  have hmet : (["daily_cost", "daily_tokens", "daily_events", "cron_fail_count", "cron_fail_streak"].contains "daily_cost") = true := by decide
  refine ⟨?_, by decide, by decide, by decide, ?_, ?_⟩
  · intro url p h hp
    simp only [isValidWebhookUrl, hp]
    by_cases h1 : p = "https:" <;>
      by_cases h2 : lowerStr h = "localhost" <;>
        by_cases h3 : strEndsWith (lowerStr h) ".local" <;>
          by_cases h4 : lowerStr h = "[::1]" <;>
            by_cases h5 : privatePrefix (lowerStr h) <;>
              by_cases h6 : lowerStr h = "169.254.169.254" <;>
                by_cases h7 : lowerStr h = "metadata.google.internal" <;>
                  simp [h1, h2, h3, h4, h5, h6, h7]
  · intro st agentId plan newId t url hne hbad
    have hfal : falsyStr (some url) = false := by
      simp [falsyStr, hne]
    simp [createAlert, falsyStr, hop, hmet, hfal, hbad, hne]
  · intro st agentId plan newId t url hgood
    have hne : url ≠ "" := by
      intro h
      subst h
      revert hgood
      decide
    have hfal : falsyStr (some url) = false := by
      simp [falsyStr, hne]
    simp [createAlert, falsyStr, hop, hmet, hfal, hgood, hne]
    try split <;> simp

/-- Witness for C4 amended: the non-HTTPS URL of the claim is refused
with 400 at creation on a concrete empty store. -/
theorem webhook_url_admissibility_witness :
    createAlert ⟨[], [], []⟩ 1 "free"
        ⟨some "r", some ⟨some "daily_cost", some "gt", some 5⟩, none, some "http://example.com"⟩ 7
      = (⟨400, none, some "Invalid webhook URL (must be HTTPS, no private IPs)"⟩, ⟨[], [], []⟩) :=
  webhook_url_admissibility.2.2.2.2.1 ⟨[], [], []⟩ 1 "free" 7 5 "http://example.com"
    (by decide) (by decide)

/-! ### C7 -/

/-- A cron event with a success status, for the C7 counterexample. -/
def cronOkEv : IngestEvent :=
  ⟨"cron", 1700000000, some (.obj [("status", .str "success"), ("job", .str "j")]), none⟩

/-- A store already holding one cron failure inside the trailing day,
so an evaluation of cron_fail_count would resolve to 1. -/
def stCron : Store :=
  ⟨[⟨1, "cron", 1699990000, none, some (.obj [("status", .str "fail")])⟩], [], []⟩

/-- Counterexample to C7 as stated: a batch holding a cron event (with
status success) does not make the evaluator resolve cron_fail_count;
the rule is still skipped, because the worker (line 212) skips unless
the batch holds a cron event whose status is "fail", not merely a cron
event of any status. -/
theorem cron_fail_count_skipped_despite_cron_event :
    (([cronOkEv] : List IngestEvent).filter (fun e => e.kind == "cron")).length ≠ 0 ∧
    resolveMetric stCron 1 1700000000 "2026-10-12" [cronOkEv] "cron_fail_count" = none := by
  constructor
  · decide
  · decide

/-- C7 as amended: evaluation of a cron_fail_count rule is skipped
exactly when the currently ingested batch contains no cron-kind event
whose status is "fail"; whenever the batch contains at least one cron
failure, the rule is evaluated against the count of cron-kind events
of the tenant in the trailing 24 hours whose embedded status is
"fail". -/
theorem cron_fail_count_requires_batch_cron_failure (st : Store) (agentId : Nat) (now : ℚ)
    (today : String) (batch : List IngestEvent) :
    (resolveMetric st agentId now today batch "cron_fail_count" = none ↔
      (batch.filter (fun e => e.kind == "cron" && statusOf e.data == some "fail")).length = 0) ∧
    ((batch.filter (fun e => e.kind == "cron" && statusOf e.data == some "fail")).length ≠ 0 →
      resolveMetric st agentId now today batch "cron_fail_count"
        = some ((cronFailCount st agentId now : ℚ))) := by
  have hres : resolveMetric st agentId now today batch "cron_fail_count"
      = (if (batch.filter (fun e => e.kind == "cron" && statusOf e.data == some "fail")).length = 0
          then none else some ((cronFailCount st agentId now : ℚ))) := rfl
  rw [hres]
  constructor
  · split <;> simp_all
  · intro h
    rw [if_neg h]

/-- A cron failure event for the C7 witness batch. -/
def cronFailEv : IngestEvent :=
  ⟨"cron", 1700000000, some (.obj [("status", .str "fail")]), none⟩

/-- Witness for C7 amended: a batch holding a cron failure makes the
evaluator resolve cron_fail_count to the stored trailing-24h failure
count (here 1). -/
theorem cron_fail_count_requires_batch_cron_failure_witness :
    resolveMetric stCron 1 1700000000 "2026-10-12" [cronFailEv] "cron_fail_count"
      = some ((cronFailCount stCron 1 1700000000 : ℚ)) :=
  (cron_fail_count_requires_batch_cron_failure stCron 1 1700000000 "2026-10-12" [cronFailEv]).2
    (by decide)

/-! ### C8 -/

/-- The streak loop of the worker counts the leading run of "fail"
statuses: it equals the length of the takeWhile prefix. -/
theorem streakLoop_eq_takeWhile (l : List (Option String)) :
    streakLoop l = (l.takeWhile (fun s => s == some "fail")).length := by
  induction l with
  | nil => rfl
  | cons s rest ih =>
    by_cases h : s == some "fail"
    · simp [streakLoop, List.takeWhile_cons, h, ih]
    · simp [streakLoop, List.takeWhile_cons, h]

/-- A stored cron event of agent 1 with the given timestamp and
status. -/
def cronEvD (ts : ℚ) (status : String) : Event :=
  ⟨1, "cron", ts, none, some (.obj [("status", .str status)])⟩

/-- The C8 counterexample store: the cron events of agent 1 read
fail, fail, success, fail in descending timestamp order, exactly the
most-recent-first sequence of the claim. -/
def stStreak : Store :=
  ⟨[cronEvD 1700000010 "fail", cronEvD 1700000020 "success",
    cronEvD 1700000030 "fail", cronEvD 1700000040 "fail"], [], []⟩

/-- A cron event making the evaluator resolve the streak metric. -/
def cronBatchEv : IngestEvent :=
  ⟨"cron", 1700000050, some (.obj [("status", .str "fail")]), none⟩

/-- Counterexample to C8 as stated: on cron events whose
most-recent-first statuses are fail, fail, success, fail the streak
metric resolves to 2 (the leading run of failures before the first
success), not 1 as the claim asserts for this sequence. -/
theorem cron_streak_leading_run_is_two_not_one :
    (recentCron stStreak 1).map (fun e => statusOf e.data)
      = [some "fail", some "fail", some "success", some "fail"] ∧
    resolveMetric stStreak 1 1700000050 "2026-10-12" [cronBatchEv] "cron_fail_streak"
      = some 2 ∧
    resolveMetric stStreak 1 1700000050 "2026-10-12" [cronBatchEv] "cron_fail_streak"
      ≠ some 1 := by
  have h1 : (recentCron stStreak 1).map (fun e => statusOf e.data)
      = [some "fail", some "fail", some "success", some "fail"] := by decide
  have h2 : resolveMetric stStreak 1 1700000050 "2026-10-12" [cronBatchEv] "cron_fail_streak"
      = some ((streakLoop ((recentCron stStreak 1).map (fun e => statusOf e.data)) : ℚ)) := rfl
  have h3 : streakLoop ((recentCron stStreak 1).map (fun e => statusOf e.data)) = 2 := by
    rw [h1]
    rfl
  refine ⟨h1, ?_, ?_⟩
  · rw [h2, h3]
    norm_num
  · rw [h2, h3]
    norm_num

/-- The chronological-reading store for C8: the cron events of agent 1
were ingested in the order fail, fail, success, fail, so the
descending statuses read fail, success, fail, fail. -/
def stStreakChrono : Store :=
  ⟨[cronEvD 1700000010 "fail", cronEvD 1700000020 "fail",
    cronEvD 1700000030 "success", cronEvD 1700000040 "fail"], [], []⟩

/-- C8 as amended: whenever the batch holds a cron event, the
cron_fail_streak metric resolves, over the ten most recent cron events
of the tenant in descending timestamp order, to the length of the
leading run of events whose status is "fail", stopping at the first
other status or the end of the ten; on most-recent-first statuses
fail, fail, success, fail it evaluates to 2, and on events ingested
chronologically as fail, fail, success, fail (so most-recent-first
fail, success, fail, fail) it evaluates to 1. -/
theorem cron_streak_counts_leading_failures (st : Store) (agentId : Nat) (now : ℚ)
    (today : String) (batch : List IngestEvent)
    (hcron : (batch.filter (fun e => e.kind == "cron")).length ≠ 0) :
    resolveMetric st agentId now today batch "cron_fail_streak"
      = some (((((recentCron st agentId).map (fun e => statusOf e.data)).takeWhile
          (fun s => s == some "fail")).length : ℚ)) ∧
    resolveMetric stStreak 1 1700000050 "2026-10-12" [cronBatchEv] "cron_fail_streak" = some 2 ∧
    resolveMetric stStreakChrono 1 1700000050 "2026-10-12" [cronBatchEv] "cron_fail_streak" = some 1 := by
  refine ⟨?_, ?_, ?_⟩
  · have hres : resolveMetric st agentId now today batch "cron_fail_streak"
        = (if (batch.filter (fun e => e.kind == "cron")).length = 0 then none
            else some ((streakLoop ((recentCron st agentId).map (fun e => statusOf e.data)) : ℚ))) := rfl
    rw [hres, if_neg hcron, streakLoop_eq_takeWhile]
  · have h2 : resolveMetric stStreak 1 1700000050 "2026-10-12" [cronBatchEv] "cron_fail_streak"
        = some ((streakLoop ((recentCron stStreak 1).map (fun e => statusOf e.data)) : ℚ)) := rfl
    have h3 : streakLoop ((recentCron stStreak 1).map (fun e => statusOf e.data)) = 2 := by decide
    rw [h2, h3]
    norm_num
  · have h2 : resolveMetric stStreakChrono 1 1700000050 "2026-10-12" [cronBatchEv] "cron_fail_streak"
        = some ((streakLoop ((recentCron stStreakChrono 1).map (fun e => statusOf e.data)) : ℚ)) := rfl
    have h3 : streakLoop ((recentCron stStreakChrono 1).map (fun e => statusOf e.data)) = 1 := by decide
    rw [h2, h3]
    norm_num

/-- Witness for C8 amended: on the chronological store the takeWhile
characterization evaluates concretely, the hypothesis being the
one-element cron batch. -/
theorem cron_streak_counts_leading_failures_witness :
    resolveMetric stStreakChrono 1 1700000050 "2026-10-12" [cronBatchEv] "cron_fail_streak"
      = some (((((recentCron stStreakChrono 1).map (fun e => statusOf e.data)).takeWhile
          (fun s => s == some "fail")).length : ℚ)) :=
  (cron_streak_counts_leading_failures stStreakChrono 1 1700000050 "2026-10-12" [cronBatchEv]
    (by decide)).1

/-! ### C9 -/

/-- Total cost of the (agent, date) aggregate row, zero when the row
is absent. -/
def findCost (rows : List AggRow) (agentId : Nat) (today : String) : ℚ :=
  match rows.find? (aggKey agentId today) with
  | some r => r.totalCost
  | none => 0

/-- Sum of the cost fields of the cost-kind events of a batch, as the
Aggregation Updater computes it. -/
def costSum (events : List IngestEvent) : ℚ :=
  ((events.filter (fun e => e.kind == "cost")).map (fun e => numField e.data "cost_usd")).sum

/-- Looking up the aggregate row after the in-place update of the
upsert adds the cost increment exactly when a row was matched. -/
theorem findCost_map_update (rows : List AggRow) (agentId : Nat) (today : String) (c t : ℚ) (n : Nat) :
    findCost (rows.map (fun r => if aggKey agentId today r then updRow c t n r else r)) agentId today
      = (if rows.any (aggKey agentId today)
          then findCost rows agentId today + c else findCost rows agentId today) := by
  induction rows with
  | nil => simp [findCost]
  | cons r rs ih =>
    by_cases hp : aggKey agentId today r = true
    · have hpu : aggKey agentId today (updRow c t n r) = true := by
        rw [aggKey_updRow, hp]
      unfold findCost
      rw [List.map_cons, if_pos hp, List.find?_cons_of_pos _ hpu, List.find?_cons_of_pos _ hp]
      simp [List.any_cons, hp, updRow]
    · rw [Bool.not_eq_true] at hp
      unfold findCost
      rw [List.map_cons, if_neg (by rw [hp]; simp),
        List.find?_cons_of_neg _ (by rw [hp]; simp), List.find?_cons_of_neg _ (by rw [hp]; simp)]
      rw [List.any_cons, hp, Bool.false_or]
      exact ih

/-- The upsert of the Aggregation Updater adds the cost increment to
the looked-up total, creating the row when absent. -/
theorem findCost_upsert (rows : List AggRow) (agentId : Nat) (today : String) (c t : ℚ) (n : Nat) :
    findCost (upsertAgg rows agentId today c t n) agentId today
      = findCost rows agentId today + c := by
  unfold upsertAgg
  split
  · rename_i hany
    rw [findCost_map_update, if_pos hany]
  · rename_i hany
    rw [Bool.not_eq_true] at hany
    have hnone : rows.find? (aggKey agentId today) = none := by
      rw [List.find?_eq_none]
      intro r hr
      exact fun hp => (List.any_eq_false.mp hany r hr) hp
    unfold findCost
    rw [List.find?_append, hnone]
    have hnew : aggKey agentId today ⟨agentId, today, c, t, n⟩ = true := by
      simp [aggKey]
    rw [Option.none_or, List.find?_cons_of_pos _ hnew]
    simp

/-- Two successive upserts for the same (agent, date) key collapse to
one upsert of the combined increments. -/
theorem upsert_upsert (rows : List AggRow) (agentId : Nat) (today : String)
    (c1 t1 : ℚ) (n1 : Nat) (c2 t2 : ℚ) (n2 : Nat) :
    upsertAgg (upsertAgg rows agentId today c1 t1 n1) agentId today c2 t2 n2
      = upsertAgg rows agentId today (c1 + c2) (t1 + t2) (n1 + n2) := by
  by_cases hany : rows.any (aggKey agentId today) = true
  · have hany2 : (rows.map (fun r => if aggKey agentId today r then updRow c1 t1 n1 r else r)).any
        (aggKey agentId today) = true := by
      rw [List.any_map]
      have hfun : (aggKey agentId today ∘ fun r => if aggKey agentId today r then updRow c1 t1 n1 r else r)
          = aggKey agentId today := by
        funext r
        by_cases hp : aggKey agentId today r = true
        · simp [Function.comp_def, hp]
        · simp [Function.comp_def, hp]
      rw [hfun, hany]
    unfold upsertAgg
    rw [if_pos hany, if_pos hany2, if_pos hany, List.map_map]
    refine List.map_congr_left ?_
    intro r hr
    by_cases hp : aggKey agentId today r = true
    · simp [Function.comp_def, hp, updRow_updRow]
    · simp [Function.comp_def, hp]
  · rw [Bool.not_eq_true] at hany
    have hnew : aggKey agentId today ⟨agentId, today, c1, t1, n1⟩ = true := by
      simp [aggKey]
    have hinner : upsertAgg rows agentId today c1 t1 n1
        = rows ++ [⟨agentId, today, c1, t1, n1⟩] := by
      unfold upsertAgg
      rw [if_neg (by rw [hany]; simp)]
    rw [hinner]
    have hany2 : ((rows ++ [(⟨agentId, today, c1, t1, n1⟩ : AggRow)]).any (aggKey agentId today)) = true := by
      rw [List.any_append, hany, Bool.false_or, List.any_cons, hnew]
      rfl
    unfold upsertAgg
    rw [if_pos hany2, if_neg (by rw [hany]; simp)]
    rw [List.map_append]
    congr 1
    · refine (List.map_congr_left ?_).trans (List.map_id rows)
      intro r hr
      have hp : aggKey agentId today r = false := by
        have h := List.any_eq_false.mp hany r hr
        simpa using h
      rw [if_neg (by rw [hp]; simp)]
      rfl
    · rw [List.map_cons, List.map_nil, if_pos hnew]
      simp [updRow, add_assoc]

/-- The first cost event of the aggregation example: cost 0.10 and no
token field. -/
def costEvA : IngestEvent :=
  ⟨"cost", 1700000000, some (.obj [("cost_usd", .num 0.1)]), none⟩

/-- The second cost event of the aggregation example: cost 0.05 and a
token field. -/
def costEvB : IngestEvent :=
  ⟨"cost", 1700000000, some (.obj [("cost_usd", .num 0.05), ("tokens", .num 7)]), none⟩

/-- C9: the Aggregation Updater is additive and order-independent:
folding a concatenated batch equals folding the pieces one request at
a time, swapping the pieces changes nothing, and the looked-up daily
total grows by exactly the cost sum of the batch (missing numeric
fields counting as zero through the field extraction). -/
theorem aggregation_additive_order_independent :
    (∀ (st : Store) (agentId : Nat) (today : String) (b1 b2 : List IngestEvent),
      applyCostAgg st agentId today (b1 ++ b2)
        = applyCostAgg (applyCostAgg st agentId today b1) agentId today b2) ∧
    (∀ (st : Store) (agentId : Nat) (today : String) (b1 b2 : List IngestEvent),
      applyCostAgg st agentId today (b1 ++ b2) = applyCostAgg st agentId today (b2 ++ b1)) ∧
    (∀ (st : Store) (agentId : Nat) (today : String) (b : List IngestEvent),
      findCost (applyCostAgg st agentId today b).costDaily agentId today
        = findCost st.costDaily agentId today + costSum b) ∧
    (findCost ((ingest ⟨[], [], []⟩ 1 "free" 1700000000 "2026-10-12" [costEvA, costEvB]).2.costDaily)
        1 "2026-10-12" = 0.15 ∧
     findCost ((ingest (ingest ⟨[], [], []⟩ 1 "free" 1700000000 "2026-10-12" [costEvA]).2
        1 "free" 1700000300 "2026-10-12" [costEvB]).2.costDaily) 1 "2026-10-12" = 0.15 ∧
     findCost ((ingest (ingest ⟨[], [], []⟩ 1 "free" 1700000000 "2026-10-12" [costEvB]).2
        1 "free" 1700000300 "2026-10-12" [costEvA]).2.costDaily) 1 "2026-10-12" = 0.15) := by
  have hvA : ∀ now : ℚ, 1700000000 ≤ now → checkEvent now costEvA = none := by
    intro now hnow
    rw [checkEvent]
    rw [if_neg (by rw [costEvA]; norm_num [isValidKind]; decide)]
    rw [if_neg (by rw [costEvA]; simp only [isValidTs]; norm_num; linarith)]
    rw [if_neg (by rw [costEvA]; simp [Json.isObjectType])]
    rw [if_neg (by rw [costEvA]; simp [Json.truthy, Json.stringifyLen, Json.stringifyLenObj]; decide)]
    rfl
  have hvB : ∀ now : ℚ, 1700000000 ≤ now → checkEvent now costEvB = none := by
    intro now hnow
    rw [checkEvent]
    rw [if_neg (by rw [costEvB]; norm_num [isValidKind]; decide)]
    rw [if_neg (by rw [costEvB]; simp only [isValidTs]; norm_num; linarith)]
    rw [if_neg (by rw [costEvB]; simp [Json.isObjectType])]
    rw [if_neg (by rw [costEvB]; simp [Json.truthy, Json.stringifyLen, Json.stringifyLenObj]; decide)]
    rfl
  refine ⟨?_, ?_, ?_, ?_, ?_, ?_⟩
  · intro st agentId today b1 b2
    simp only [applyCostAgg, List.filter_append, List.length_append, List.map_append,
      List.sum_append]
    by_cases h1 : (b1.filter (fun e => e.kind == "cost")).length = 0
    · rw [List.length_eq_zero] at h1
      simp [h1]
    · by_cases h2 : (b2.filter (fun e => e.kind == "cost")).length = 0
      · rw [List.length_eq_zero] at h2
        simp [h2]
      · rw [if_neg (by omega), if_neg h1, if_neg h2]
        simp only [upsert_upsert]
  · intro st agentId today b1 b2
    simp only [applyCostAgg, List.filter_append, List.length_append, List.map_append,
      List.sum_append]
    rw [Nat.add_comm (b2.filter (fun e => e.kind == "cost")).length
      (b1.filter (fun e => e.kind == "cost")).length]
    rw [add_comm ((b2.filter (fun e => e.kind == "cost")).map (fun e => numField e.data "cost_usd")).sum
      ((b1.filter (fun e => e.kind == "cost")).map (fun e => numField e.data "cost_usd")).sum]
    rw [add_comm ((b2.filter (fun e => e.kind == "cost")).map (fun e => numField e.data "tokens")).sum
      ((b1.filter (fun e => e.kind == "cost")).map (fun e => numField e.data "tokens")).sum]
  · intro st agentId today b
    simp only [applyCostAgg, costSum]
    by_cases h : (b.filter (fun e => e.kind == "cost")).length = 0
    · rw [if_pos h]
      rw [List.length_eq_zero] at h
      rw [h]
      simp
    · rw [if_neg h]
      exact findCost_upsert st.costDaily agentId today _ _ _
  · have e1 := ingest_success_eq ⟨[], [], []⟩ 1 "free" 1700000000 "2026-10-12" [costEvA, costEvB]
      (by simp) (by simp)
      (by simp [List.findSome?_cons, hvA 1700000000 (by norm_num), hvB 1700000000 (by norm_num)])
      (by simp [PLAN_LIMITS]) (by simp [PLAN_LIMITS, windowCount])
    rw [e1]
    simp [applyCostAgg, costEvA, costEvB, upsertAgg, aggKey, findCost, numField, Json.field,
      List.lookup]
    norm_num
  · have e2a := ingest_success_eq ⟨[], [], []⟩ 1 "free" 1700000000 "2026-10-12" [costEvA]
      (by simp) (by simp)
      (by simp [List.findSome?_cons, hvA 1700000000 (by norm_num)])
      (by simp [PLAN_LIMITS]) (by simp [PLAN_LIMITS, windowCount])
    rw [e2a]
    have hS1 : applyCostAgg ⟨[mkStoredEvent 1 costEvA], [], []⟩ 1 "2026-10-12" [costEvA]
        = ⟨[mkStoredEvent 1 costEvA], [⟨1, "2026-10-12", 0.1, 0, 1⟩], []⟩ := by
      simp [applyCostAgg, costEvA, upsertAgg, aggKey, numField, Json.field, mkStoredEvent,
        List.lookup]
    simp only [List.map_cons, List.map_nil, List.nil_append] at hS1 ⊢
    rw [hS1]
    have e2b := ingest_success_eq ⟨[mkStoredEvent 1 costEvA], [⟨1, "2026-10-12", 0.1, 0, 1⟩], []⟩
      1 "free" 1700000300 "2026-10-12" [costEvB]
      (by simp) (by simp)
      (by simp [List.findSome?_cons, hvB 1700000300 (by norm_num)])
      (by simp [PLAN_LIMITS])
      (by norm_num [PLAN_LIMITS, windowCount, mkStoredEvent, costEvA, List.countP_cons])
    rw [e2b]
    simp [applyCostAgg, costEvB, upsertAgg, aggKey, findCost, numField, Json.field, List.lookup,
      updRow]
    norm_num
  · have e2a := ingest_success_eq ⟨[], [], []⟩ 1 "free" 1700000000 "2026-10-12" [costEvB]
      (by simp) (by simp)
      (by simp [List.findSome?_cons, hvB 1700000000 (by norm_num)])
      (by simp [PLAN_LIMITS]) (by simp [PLAN_LIMITS, windowCount])
    rw [e2a]
    have hS1 : applyCostAgg ⟨[mkStoredEvent 1 costEvB], [], []⟩ 1 "2026-10-12" [costEvB]
        = ⟨[mkStoredEvent 1 costEvB], [⟨1, "2026-10-12", 0.05, 7, 1⟩], []⟩ := by
      simp [applyCostAgg, costEvB, upsertAgg, aggKey, numField, Json.field, mkStoredEvent,
        List.lookup]
    simp only [List.map_cons, List.map_nil, List.nil_append] at hS1 ⊢
    rw [hS1]
    have e2b := ingest_success_eq ⟨[mkStoredEvent 1 costEvB], [⟨1, "2026-10-12", 0.05, 7, 1⟩], []⟩
      1 "free" 1700000300 "2026-10-12" [costEvA]
      (by simp) (by simp)
      (by simp [List.findSome?_cons, hvA 1700000300 (by norm_num)])
      (by simp [PLAN_LIMITS])
      (by norm_num [PLAN_LIMITS, windowCount, mkStoredEvent, costEvB, List.countP_cons])
    rw [e2b]
    simp [applyCostAgg, costEvA, upsertAgg, aggKey, findCost, numField, Json.field, List.lookup,
      updRow]
    norm_num

/-! ### C5 -/

/-- The store holds an alert_fired record for this rule stamped at
time t. -/
def FireAt (st : Store) (agentId : Nat) (rid : ℚ) (t : ℚ) : Prop :=
  ∃ e ∈ st.events, isFire agentId rid e = true ∧ e.ts = t

/-- The rule id embedded in a fired event is the id of the fired
rule. -/
theorem ruleIdOf_firedEvent (agentId : Nat) (r : AlertRule) (v now : ℚ) :
    ruleIdOf (firedEvent agentId r v now).data = some ((r.id : ℚ)) := rfl

/-- A fired event of rule r matches the fire predicate of rule id rid
exactly when the ids agree. -/
theorem isFire_firedEvent (agentId : Nat) (rid : ℚ) (r : AlertRule) (v now : ℚ) :
    isFire agentId rid (firedEvent agentId r v now) = true ↔ (r.id : ℚ) = rid := by
  simp [isFire, firedEvent, ruleIdOf, Json.field, List.lookup]

/-- A fired event of another rule never matches the fire predicate. -/
theorem isFire_firedEvent_false (agentId : Nat) (rid : ℚ) (r : AlertRule) (v now : ℚ)
    (hne : (r.id : ℚ) ≠ rid) :
    isFire agentId rid (firedEvent agentId r v now) = false := by
  apply Bool.eq_false_iff.mpr
  rw [ne_eq, isFire_firedEvent]
  exact hne

/-- Evaluating one rule only ever appends to the event log. -/
theorem evalRule_events (agentId : Nat) (now : ℚ) (today : String)
    (batch : List IngestEvent) (st : Store) (r : AlertRule) :
    st.events <+: (evalRule agentId now today batch st r).events := by
  unfold evalRule
  split
  · exact List.prefix_rfl
  · split
    · split
      · exact List.prefix_rfl
      · exact List.prefix_append _ _
    · exact List.prefix_rfl

/-- Folding the evaluator over a rule list only ever appends to the
event log. -/
theorem foldl_evalRule_events (agentId : Nat) (now : ℚ) (today : String)
    (batch : List IngestEvent) (rules : List AlertRule) (st : Store) :
    st.events <+: (rules.foldl (evalRule agentId now today batch) st).events := by
  induction rules generalizing st with
  | nil => exact List.prefix_rfl
  | cons r rest ih =>
    rw [List.foldl_cons]
    exact (evalRule_events agentId now today batch st r).trans
      (ih (evalRule agentId now today batch st r))

/-- The whole alert evaluation pass only ever appends to the event
log. -/
theorem evaluateAlerts_events (st : Store) (agentId : Nat) (now : ℚ) (today : String)
    (batch : List IngestEvent) :
    st.events <+: (evaluateAlerts st agentId now today batch).events := by
  unfold evaluateAlerts
  exact foldl_evalRule_events agentId now today batch (enabledRules st agentId) st

/-- The ingest handler only ever appends to the event log. -/
theorem ingest_events_extend (st : Store) (agentId : Nat) (plan : String) (now : ℚ)
    (today : String) (batch : List IngestEvent) :
    st.events <+: (ingest st agentId plan now today batch).2.events := by
  simp only [ingest]
  repeat' split
  all_goals try exact List.prefix_rfl
  rw [applyCostAgg_events]
  exact List.prefix_append _ _

/-- A prefix-extension of the event log keeps every fired record. -/
theorem FireAt_mono {st st2 : Store} {agentId : Nat} {rid t : ℚ}
    (hpre : st.events <+: st2.events)
    (h : FireAt st agentId rid t) : FireAt st2 agentId rid t := by
  obtain ⟨e, he, hf, hts⟩ := h
  exact ⟨e, hpre.subset he, hf, hts⟩

/-- A fired record inside the one-hour window makes the dedup lookback
succeed. -/
theorem FireAt_hasRecent {st : Store} {agentId : Nat} {rid t now : ℚ}
    (h : FireAt st agentId rid t) (hwin : now - 3600 ≤ t) :
    hasRecentFire st agentId rid now = true := by
  obtain ⟨e, he, hf, hts⟩ := h
  unfold hasRecentFire
  rw [List.any_eq_true]
  refine ⟨e, he, ?_⟩
  rw [hf, hts]
  simpa using hwin

/-- While the dedup lookback for a rule id succeeds, evaluating any
single rule neither adds nor removes fired records for that id, and
the lookback still succeeds afterwards. -/
theorem evalRule_fireCount (agentId : Nat) (now : ℚ) (today : String)
    (batch : List IngestEvent) (st : Store) (r : AlertRule) (rid : ℚ)
    (hrec : hasRecentFire st agentId rid now = true) :
    fireCount (evalRule agentId now today batch st r) agentId rid = fireCount st agentId rid ∧
    hasRecentFire (evalRule agentId now today batch st r) agentId rid now = true := by
  unfold evalRule
  split
  · exact ⟨rfl, hrec⟩
  · split
    · split
      · exact ⟨rfl, hrec⟩
      · rename_i v heq htrig hnorec
        have hne : (r.id : ℚ) ≠ rid := by
          intro h
          rw [h] at hnorec
          exact hnorec hrec
        constructor
        · unfold fireCount
          simp [List.countP_append, isFire_firedEvent_false agentId rid r v now hne]
        · unfold hasRecentFire at hrec ⊢
          simp only [List.any_append, hrec]
          rfl
    · exact ⟨rfl, hrec⟩

/-- While the dedup lookback for a rule id succeeds, the whole
evaluation pass neither adds nor removes fired records for that id. -/
theorem foldl_evalRule_fireCount (agentId : Nat) (now : ℚ) (today : String)
    (batch : List IngestEvent) (rules : List AlertRule) (st : Store) (rid : ℚ)
    (hrec : hasRecentFire st agentId rid now = true) :
    fireCount (rules.foldl (evalRule agentId now today batch) st) agentId rid
      = fireCount st agentId rid := by
  induction rules generalizing st with
  | nil => rfl
  | cons r rest ih =>
    obtain ⟨h1, h2⟩ := evalRule_fireCount agentId now today batch st r rid hrec
    rw [List.foldl_cons, ih (evalRule agentId now today batch st r) h2, h1]

/-- A batch free of the reserved alert_fired kind never changes the
fired-record count of any rule through the ingest insert. -/
theorem ingest_fireCount (st : Store) (agentId : Nat) (plan : String) (now : ℚ)
    (today : String) (batch : List IngestEvent) (rid : ℚ)
    (hclean : ∀ e ∈ batch, e.kind ≠ "alert_fired") :
    fireCount (ingest st agentId plan now today batch).2 agentId rid
      = fireCount st agentId rid := by
  simp only [ingest]
  repeat' split
  all_goals try rfl
  unfold fireCount
  rw [applyCostAgg_events]
  have hz : ∀ (n : Nat) (e : Event), e ∈ ((batch.map (mkStoredEvent agentId)).take n) →
      isFire agentId rid e = false := by
    intro n e he
    have he2 := List.mem_of_mem_take he
    rw [List.mem_map] at he2
    obtain ⟨x, hx, hxe⟩ := he2
    have hk : (x.kind == "alert_fired") = false := by
      apply Bool.eq_false_iff.mpr
      simpa using hclean x hx
    rw [← hxe]
    simp [isFire, mkStoredEvent, hk]
  simp only [List.countP_append, List.countP_eq_zero]
  have hzero : (∀ a ∈ (batch.map (mkStoredEvent agentId)).take (PLAN_LIMITS plan).maxBatchSize,
      ¬isFire agentId rid a = true) := by
    intro a ha h
    rw [hz _ a ha] at h
    exact Bool.false_ne_true h
  simp [List.countP_eq_zero.mpr hzero]

/-- One full processing step of a clean batch inside the dedup window
preserves the fired-record count and the fired record itself. -/
theorem ingestStep_preserves (plan today : String) (agentId : Nat) (rid t : ℚ)
    (st : Store) (batch : List IngestEvent) (now : ℚ)
    (hclean : ∀ e ∈ batch, e.kind ≠ "alert_fired")
    (hFire : FireAt st agentId rid t)
    (hwin : now - 3600 ≤ t) :
    fireCount (ingestStep plan today agentId st (batch, now)) agentId rid
      = fireCount st agentId rid ∧
    FireAt (ingestStep plan today agentId st (batch, now)) agentId rid t := by
  have hFi : FireAt (ingest st agentId plan now today batch).2 agentId rid t :=
    FireAt_mono (ingest_events_extend st agentId plan now today batch) hFire
  have hi := ingest_fireCount st agentId plan now today batch rid hclean
  simp only [ingestStep]
  split
  · constructor
    · unfold evaluateAlerts
      rw [foldl_evalRule_fireCount _ _ _ _ _ _ _ (FireAt_hasRecent hFi hwin), hi]
    · exact FireAt_mono
        (evaluateAlerts_events (ingest st agentId plan now today batch).2 agentId now today batch)
        hFi
  · exact ⟨hi, hFi⟩

/-- C5: once a rule has fired (an alert_fired event for its id at time
t is stored), any number of subsequent telemetry ingestions processed
within one hour of t leaves the count of fired records for that rule
unchanged, however often the condition is satisfied; and whenever an
enabled rule heads the rule list, its metric resolves, its condition
holds and the one-hour lookback finds no fired record (in particular
once the window has elapsed), the evaluation pass persists a new
alert_fired event for it stamped with the evaluation time. -/
theorem alert_dedup_one_hour :
    (∀ (plan today : String) (agentId : Nat) (rid t : ℚ) (st : Store)
        (L : List (List IngestEvent × ℚ)),
      FireAt st agentId rid t →
      (∀ p ∈ L, (∀ e ∈ p.1, e.kind ≠ "alert_fired") ∧ t ≤ p.2 ∧ p.2 ≤ t + 3600) →
      fireCount (L.foldl (ingestStep plan today agentId) st) agentId rid
        = fireCount st agentId rid) ∧
    (∀ (today : String) (agentId : Nat) (st : Store) (batch : List IngestEvent) (now : ℚ)
        (r : AlertRule) (rest : List AlertRule) (v : ℚ),
      enabledRules st agentId = r :: rest →
      resolveMetric st agentId now today batch r.metric = some v →
      applyOp r.op v r.threshold = true →
      hasRecentFire st agentId (r.id : ℚ) now = false →
      ∃ e ∈ (evaluateAlerts st agentId now today batch).events,
        isFire agentId (r.id : ℚ) e = true ∧ e.ts = now) := by
  constructor
  · intro plan today agentId rid t st L hFire hL
    induction L generalizing st with
    | nil => rfl
    | cons p L ih =>
      obtain ⟨hclean, hlo, hhi⟩ := hL p (List.mem_cons_self p L)
      have hwin : p.2 - 3600 ≤ t := by linarith
      obtain ⟨h1, h2⟩ := ingestStep_preserves plan today agentId rid t st p.1 p.2 hclean hFire hwin
      rw [List.foldl_cons]
      have hstep : ingestStep plan today agentId st (p.1, p.2) = ingestStep plan today agentId st p := by
        rfl
      rw [← hstep]
      rw [ih (ingestStep plan today agentId st (p.1, p.2)) h2
        (fun q hq => hL q (List.mem_cons_of_mem p hq)), h1]
  · intro today agentId st batch now r rest v henabled hres htrig hnorec
    have hfired : evalRule agentId now today batch st r
        = { st with events := st.events ++ [firedEvent agentId r v now] } := by
      unfold evalRule
      simp only [hres]
      rw [if_pos htrig, if_neg (by rw [hnorec]; simp)]
    have hmem : firedEvent agentId r v now ∈ (evalRule agentId now today batch st r).events := by
      rw [hfired]
      exact List.mem_append_right _ (List.mem_singleton.mpr rfl)
    unfold evaluateAlerts
    rw [henabled, List.foldl_cons]
    refine ⟨firedEvent agentId r v now, ?_, ?_, rfl⟩
    · exact (foldl_evalRule_events agentId now today batch rest
        (evalRule agentId now today batch st r)).subset hmem
    · rw [isFire_firedEvent]

/-- The fired record of the C5 witness, stamped at t = 1700000000 for
rule id 7. -/
def fireEv : Event :=
  ⟨1, "alert_fired", 1700000000, none, some (.obj [("rule_id", .num 7)])⟩

/-- The enabled daily_cost rule of the C5 witness. -/
def rule7 : AlertRule :=
  ⟨7, 1, "hot", "daily_cost", "gt", 10, "email", none, true⟩

/-- The C5 witness store: rule 7 has fired, and the daily cost 12
still satisfies the condition. -/
def stFired : Store :=
  ⟨[fireEv], [⟨1, "2026-10-12", 12, 0, 1⟩], [rule7]⟩

/-- Witness for C5: a telemetry ingestion five minutes after the
firing adds no fired record for rule 7, and an evaluation one hour and
one second after the firing, with the condition still satisfied,
persists a fresh alert_fired event. -/
theorem alert_dedup_one_hour_witness :
    fireCount (List.foldl (ingestStep "free" "2026-10-12" 1) stFired [([mEv], 1700000300)]) 1 7
      = fireCount stFired 1 7 ∧
    (∃ e ∈ (evaluateAlerts stFired 1 1700003601 "2026-10-12" []).events,
      isFire 1 ((rule7.id : ℚ)) e = true ∧ e.ts = 1700003601) := by
  constructor
  · refine alert_dedup_one_hour.1 "free" "2026-10-12" 1 7 1700000000 stFired
      [([mEv], 1700000300)] ⟨fireEv, ?_, ?_, rfl⟩ ?_
    · rw [stFired]
      exact List.mem_cons_self _ _
    · decide
    · intro p hp
      rw [List.mem_singleton] at hp
      subst hp
      refine ⟨?_, by norm_num, by norm_num⟩
      intro e he
      rw [List.mem_singleton] at he
      subst he
      decide
  · refine alert_dedup_one_hour.2 "2026-10-12" 1 stFired [] 1700003601 rule7 [] 12
      rfl rfl (by decide) ?_
    have hfalse : (isFire 1 ((7 : ℚ)) fireEv && decide ((1700003601 : ℚ) - 3600 ≤ fireEv.ts)) = false := by
      have hts : ¬((1700003601 : ℚ) - 3600 ≤ fireEv.ts) := by
        rw [fireEv]
        norm_num
      simp [hts]
    unfold hasRecentFire
    rw [show stFired.events = [fireEv] from rfl]
    rw [List.any_cons, List.any_nil]
    rw [show ((rule7.id : Nat) : ℚ) = (7 : ℚ) by norm_num [rule7]]
    rw [hfalse]
    rfl

end AgentPulse
